import Mathlib

/-!
# Verification of the darkmatter aggregation-and-ledger subsystem

A shallow embedding, in Lean 4, of the parts of the `aquarelle-tech/darkmatter`
repository that the frozen claims are about:

* `shamir/shamir.go` — the vendored Shamir secret-sharing module (GF(2^8)
  table arithmetic, `Split`, `Combine`);
* `types/types.go` — the block data model (`FullSignedBlock`, `Result`),
  the hashing protocol (`calculateHash`, `CreateHash`), and the badger-backed
  ledger store (`StoreBlock`, `GetBlock`, `FindBlockByTimestamp`,
  `FindBlockByHeight`, key construction helpers).

Go byte slices and Go strings are both modelled as `List Nat` (each entry one
byte); machine integers are `Nat`/`Int` with explicit wrapping where overflow
matters (`uint8` arithmetic in the Shamir code, the `uint64 → int64`
reinterpretation in `CreateHash`).  Randomness (`crypto/rand`, `math/rand`) is
passed in explicitly: `Split` receives the x-coordinate permutation and the
per-byte coefficient source as arguments.  Fallible operations return
`Except String` mirroring Go's `error` results.
-/

namespace Shamir

/-- `logTable` from `shamir.go`: log(X)/log(g) at each index X, generator 0xe5. -/
def logTable : List Nat := [
  0x00, 0xff, 0xc8, 0x08, 0x91, 0x10, 0xd0, 0x36,
  0x5a, 0x3e, 0xd8, 0x43, 0x99, 0x77, 0xfe, 0x18,
  0x23, 0x20, 0x07, 0x70, 0xa1, 0x6c, 0x0c, 0x7f,
  0x62, 0x8b, 0x40, 0x46, 0xc7, 0x4b, 0xe0, 0x0e,
  0xeb, 0x16, 0xe8, 0xad, 0xcf, 0xcd, 0x39, 0x53,
  0x6a, 0x27, 0x35, 0x93, 0xd4, 0x4e, 0x48, 0xc3,
  0x2b, 0x79, 0x54, 0x28, 0x09, 0x78, 0x0f, 0x21,
  0x90, 0x87, 0x14, 0x2a, 0xa9, 0x9c, 0xd6, 0x74,
  0xb4, 0x7c, 0xde, 0xed, 0xb1, 0x86, 0x76, 0xa4,
  0x98, 0xe2, 0x96, 0x8f, 0x02, 0x32, 0x1c, 0xc1,
  0x33, 0xee, 0xef, 0x81, 0xfd, 0x30, 0x5c, 0x13,
  0x9d, 0x29, 0x17, 0xc4, 0x11, 0x44, 0x8c, 0x80,
  0xf3, 0x73, 0x42, 0x1e, 0x1d, 0xb5, 0xf0, 0x12,
  0xd1, 0x5b, 0x41, 0xa2, 0xd7, 0x2c, 0xe9, 0xd5,
  0x59, 0xcb, 0x50, 0xa8, 0xdc, 0xfc, 0xf2, 0x56,
  0x72, 0xa6, 0x65, 0x2f, 0x9f, 0x9b, 0x3d, 0xba,
  0x7d, 0xc2, 0x45, 0x82, 0xa7, 0x57, 0xb6, 0xa3,
  0x7a, 0x75, 0x4f, 0xae, 0x3f, 0x37, 0x6d, 0x47,
  0x61, 0xbe, 0xab, 0xd3, 0x5f, 0xb0, 0x58, 0xaf,
  0xca, 0x5e, 0xfa, 0x85, 0xe4, 0x4d, 0x8a, 0x05,
  0xfb, 0x60, 0xb7, 0x7b, 0xb8, 0x26, 0x4a, 0x67,
  0xc6, 0x1a, 0xf8, 0x69, 0x25, 0xb3, 0xdb, 0xbd,
  0x66, 0xdd, 0xf1, 0xd2, 0xdf, 0x03, 0x8d, 0x34,
  0xd9, 0x92, 0x0d, 0x63, 0x55, 0xaa, 0x49, 0xec,
  0xbc, 0x95, 0x3c, 0x84, 0x0b, 0xf5, 0xe6, 0xe7,
  0xe5, 0xac, 0x7e, 0x6e, 0xb9, 0xf9, 0xda, 0x8e,
  0x9a, 0xc9, 0x24, 0xe1, 0x0a, 0x15, 0x6b, 0x3a,
  0xa0, 0x51, 0xf4, 0xea, 0xb2, 0x97, 0x9e, 0x5d,
  0x22, 0x88, 0x94, 0xce, 0x19, 0x01, 0x71, 0x4c,
  0xa5, 0xe3, 0xc5, 0x31, 0xbb, 0xcc, 0x1f, 0x2d,
  0x3b, 0x52, 0x6f, 0xf6, 0x2e, 0x89, 0xf7, 0xc0,
  0x68, 0x1b, 0x64, 0x04, 0x06, 0xbf, 0x83, 0x38]

/-- `expTable` from `shamir.go`: the anti-log / exponentiation table. -/
def expTable : List Nat := [
  0x01, 0xe5, 0x4c, 0xb5, 0xfb, 0x9f, 0xfc, 0x12,
  0x03, 0x34, 0xd4, 0xc4, 0x16, 0xba, 0x1f, 0x36,
  0x05, 0x5c, 0x67, 0x57, 0x3a, 0xd5, 0x21, 0x5a,
  0x0f, 0xe4, 0xa9, 0xf9, 0x4e, 0x64, 0x63, 0xee,
  0x11, 0x37, 0xe0, 0x10, 0xd2, 0xac, 0xa5, 0x29,
  0x33, 0x59, 0x3b, 0x30, 0x6d, 0xef, 0xf4, 0x7b,
  0x55, 0xeb, 0x4d, 0x50, 0xb7, 0x2a, 0x07, 0x8d,
  0xff, 0x26, 0xd7, 0xf0, 0xc2, 0x7e, 0x09, 0x8c,
  0x1a, 0x6a, 0x62, 0x0b, 0x5d, 0x82, 0x1b, 0x8f,
  0x2e, 0xbe, 0xa6, 0x1d, 0xe7, 0x9d, 0x2d, 0x8a,
  0x72, 0xd9, 0xf1, 0x27, 0x32, 0xbc, 0x77, 0x85,
  0x96, 0x70, 0x08, 0x69, 0x56, 0xdf, 0x99, 0x94,
  0xa1, 0x90, 0x18, 0xbb, 0xfa, 0x7a, 0xb0, 0xa7,
  0xf8, 0xab, 0x28, 0xd6, 0x15, 0x8e, 0xcb, 0xf2,
  0x13, 0xe6, 0x78, 0x61, 0x3f, 0x89, 0x46, 0x0d,
  0x35, 0x31, 0x88, 0xa3, 0x41, 0x80, 0xca, 0x17,
  0x5f, 0x53, 0x83, 0xfe, 0xc3, 0x9b, 0x45, 0x39,
  0xe1, 0xf5, 0x9e, 0x19, 0x5e, 0xb6, 0xcf, 0x4b,
  0x38, 0x04, 0xb9, 0x2b, 0xe2, 0xc1, 0x4a, 0xdd,
  0x48, 0x0c, 0xd0, 0x7d, 0x3d, 0x58, 0xde, 0x7c,
  0xd8, 0x14, 0x6b, 0x87, 0x47, 0xe8, 0x79, 0x84,
  0x73, 0x3c, 0xbd, 0x92, 0xc9, 0x23, 0x8b, 0x97,
  0x95, 0x44, 0xdc, 0xad, 0x40, 0x65, 0x86, 0xa2,
  0xa4, 0xcc, 0x7f, 0xec, 0xc0, 0xaf, 0x91, 0xfd,
  0xf7, 0x4f, 0x81, 0x2f, 0x5b, 0xea, 0xa8, 0x1c,
  0x02, 0xd1, 0x98, 0x71, 0xed, 0x25, 0xe3, 0x24,
  0x06, 0x68, 0xb3, 0x93, 0x2c, 0x6f, 0x3e, 0x6c,
  0x0a, 0xb8, 0xce, 0xae, 0x74, 0xb1, 0x42, 0xb4,
  0x1e, 0xd3, 0x49, 0xe9, 0x9c, 0xc8, 0xc6, 0xc7,
  0x22, 0x6e, 0xdb, 0x20, 0xbf, 0x43, 0x51, 0x52,
  0x66, 0xb2, 0x76, 0x60, 0xda, 0xc5, 0xf3, 0xf6,
  0xaa, 0xcd, 0x9a, 0xa0, 0x75, 0x54, 0x0e, 0x01]

/-- `ShareOverhead` from `shamir.go`: the documented byte-size overhead of each
share produced by `Split` ("caused by appending a one byte tag to the share"). -/
def ShareOverhead : Nat := 1

/-- `add` from `shamir.go`: addition in GF(2^8) is xor. -/
def add (a b : Nat) : Nat := a ^^^ b

/-- `mult` from `shamir.go`: GF(2^8) multiplication through the log/exp tables.
The constant-time-selection branches of the Go code amount to: return 0 when
either operand is 0, the table value otherwise. -/
def mult (a b : Nat) : Nat :=
  let ret := expTable.getD ((logTable.getD a 0 + logTable.getD b 0) % 255) 0
  if a = 0 ∨ b = 0 then 0 else ret

/-- `div` from `shamir.go`: GF(2^8) division through the log/exp tables.
Go computes `(int(logA) - int(logB)) % 255` with truncated `%` and then adds
255 when negative.  Go panics when `b = 0`; that case is modelled as 0 here
and is unreachable in `Combine` (the x-samples are checked distinct). -/
def div (a b : Nat) : Nat :=
  let d0 : Int := (Int.ofNat (logTable.getD a 0) - Int.ofNat (logTable.getD b 0)).tmod 255
  let d : Int := if d0 < 0 then d0 + 255 else d0
  let ret := expTable.getD d.toNat 0
  if b = 0 then 0
  else if a = 0 then 0 else ret

/-- `makePolynomial` from `shamir.go`: a polynomial of the given degree with the
provided intercept; coefficients 1..degree come from the random source `rnd`
(`crypto/rand.Read` fills them with bytes, hence the `% 256`). -/
def makePolynomial (intercept degree : Nat) (rnd : Nat → Nat) : List Nat :=
  intercept :: (List.range degree).map (fun j => rnd j % 256)

/-- `polynomial.evaluate` from `shamir.go`: Horner evaluation at `x`, with the
origin special-cased. -/
def evaluate (coefficients : List Nat) (x : Nat) : Nat :=
  if x = 0 then coefficients.getD 0 0
  else
    let degree := coefficients.length - 1
    (List.range degree).reverse.foldl
      (fun out i => add (mult out x) (coefficients.getD i 0))
      (coefficients.getD degree 0)

/-- `interpolatePolynomial` from `shamir.go`: Lagrange interpolation of the
sample points at `x`. -/
def interpolatePolynomial (xSamples ySamples : List Nat) (x : Nat) : Nat :=
  let limit := xSamples.length
  (List.range limit).foldl
    (fun result i =>
      let basis := (List.range limit).foldl
        (fun basis j =>
          if i = j then basis
          else
            let num := add x (xSamples.getD j 0)
            let denom := add (xSamples.getD i 0) (xSamples.getD j 0)
            mult basis (div num denom))
        1
      add result (mult (ySamples.getD i 0) basis))
    0

/-- The x coordinate written into share `i` by `Split`:
`uint8(xCoordinates[i]) + 1` with `uint8` wrap-around arithmetic. -/
def shareX (xCoordinates : List Nat) (i : Nat) : Nat :=
  (xCoordinates.getD i 0 % 256 + 1) % 256

/-- The body of `Split`'s per-share construction.  The Go code loops over the
secret bytes on the outside and the shares on the inside; each inner iteration
mutates only share `i`, so grouping the writes per share preserves the
semantics.  Per secret byte `(idx, val)` the Go loop body executes
`out[i][idx] = y`, `out[i][len+1] = p.coefficients[0]`,
`out[i][len+2] = p.coefficients[1]` on the share, starting from a zeroed
share of length `len+3` whose byte `len` holds the x coordinate. -/
def splitStep (len threshold : Nat) (rnd : Nat → Nat → Nat) (x : Nat)
    (share : List Nat) (iv : Nat × Nat) : List Nat :=
  let p := makePolynomial iv.2 (threshold - 1) (rnd iv.1)
  let y := evaluate p x
  ((share.set iv.1 y).set (len + 1) (p.getD 0 0)).set (len + 2) (p.getD 1 0)

/-- One full share: the fold of `splitStep` over the enumerated secret, from a
zeroed share of length `len+3` whose byte `len` holds the x coordinate. -/
def splitShare (secret : List Nat) (threshold : Nat) (rnd : Nat → Nat → Nat)
    (x : Nat) : List Nat :=
  secret.enum.foldl (splitStep secret.length threshold rnd x)
    ((List.replicate (secret.length + 3) 0).set secret.length x)

/-- `Split` from `shamir.go`.  The `math/rand` permutation of 255 x-coordinates
and the `crypto/rand` coefficient source are passed in explicitly
(`rnd idx j` is the j-th random coefficient byte of the polynomial for secret
byte `idx`).  The stray debugging `fmt.Printf` in the source has no effect on
the returned value and is dropped. -/
def Split (secret : List Nat) (parts threshold : Nat)
    (xCoordinates : List Nat) (rnd : Nat → Nat → Nat) :
    Except String (List (List Nat)) :=
  if parts < threshold then .error "parts cannot be less than threshold"
  else if 255 < parts then .error "parts cannot exceed 255"
  else if threshold < 2 then .error "threshold must be at least 2"
  else if 255 < threshold then .error "threshold cannot exceed 255"
  else if secret.length = 0 then .error "cannot split an empty secret"
  else .ok ((List.range parts).map (fun i =>
    splitShare secret threshold rnd (shareX xCoordinates i)))

/-- `Combine` from `shamir.go`.  The `checkMap` duplicate-detection loop is
modelled by a `Nodup` test on the x-samples; Go's runtime panic at
`part[firstPartLen-3]` when `firstPartLen = 2` is modelled as an error. -/
def Combine (parts : List (List Nat)) : Except String (List Nat) :=
  if parts.length < 2 then
    .error "less than two parts cannot be used to reconstruct the secret"
  else
    let firstPartLen := (parts.getD 0 []).length
    if firstPartLen < 2 then .error "parts must be at least two bytes"
    else if ¬ parts.all (fun p => p.length = firstPartLen) then
      .error "all parts must be the same length"
    else if firstPartLen < 3 then
      .error "runtime panic: index out of range"
    else
      let xSamples := parts.map (fun p => p.getD (firstPartLen - 3) 0)
      if ¬ xSamples.Nodup then .error "duplicate part detected"
      else
        .ok ((List.range (firstPartLen - 1)).map (fun idx =>
          interpolatePolynomial xSamples (parts.map (fun p => p.getD idx 0)) 0))

end Shamir

namespace Darkmatter

/-- Bytes of a Go string literal (all literals in the source are ASCII). -/
def strBytes (s : String) : List Nat := s.data.map Char.toNat

/-- `ServiceHash` from `types.go`: the fixed service-wide marker mixed into
every hash. -/
def ServiceHash : List Nat :=
  strBytes "1d0684170dcf58ed2499d233be72b5dde48d8124cb617f1309bae85da2fe85cf"

/-- `BlockHashPrefix` from `types.go`: the two-character "dd" marker of
DarkMatter block hashes. -/
def BlockHashPrefix : List Nat := strBytes "dd"

/-! ### SHA-256 (model of Go's `crypto/sha256.Sum256`, FIPS 180-4) -/

/-- Truncation to a 32-bit word. -/
def w32 (n : Nat) : Nat := n % 4294967296

/-- Right rotation of a 32-bit word. -/
def rotr (n x : Nat) : Nat := w32 ((x >>> n) ||| (x <<< (32 - n)))

/-- The `Ch` function of SHA-256. -/
def shaCh (x y z : Nat) : Nat := (x &&& y) ^^^ ((x ^^^ 0xffffffff) &&& z)

/-- The `Maj` function of SHA-256. -/
def shaMaj (x y z : Nat) : Nat := (x &&& y) ^^^ (x &&& z) ^^^ (y &&& z)

/-- The big Σ0 function of SHA-256. -/
def sigma0 (x : Nat) : Nat := rotr 2 x ^^^ rotr 13 x ^^^ rotr 22 x

/-- The big Σ1 function of SHA-256. -/
def sigma1 (x : Nat) : Nat := rotr 6 x ^^^ rotr 11 x ^^^ rotr 25 x

/-- The small σ0 function of SHA-256. -/
def ssigma0 (x : Nat) : Nat := rotr 7 x ^^^ rotr 18 x ^^^ (x >>> 3)

/-- The small σ1 function of SHA-256. -/
def ssigma1 (x : Nat) : Nat := rotr 17 x ^^^ rotr 19 x ^^^ (x >>> 10)

/-- The 64 SHA-256 round constants. -/
def sha256K : List Nat := [
  1116352408, 1899447441, 3049323471, 3921009573, 961987163,
  1508970993, 2453635748, 2870763221, 3624381080, 310598401,
  607225278, 1426881987, 1925078388, 2162078206, 2614888103,
  3248222580, 3835390401, 4022224774, 264347078, 604807628,
  770255983, 1249150122, 1555081692, 1996064986, 2554220882,
  2821834349, 2952996808, 3210313671, 3336571891, 3584528711,
  113926993, 338241895, 666307205, 773529912, 1294757372,
  1396182291, 1695183700, 1986661051, 2177026350, 2456956037,
  2730485921, 2820302411, 3259730800, 3345764771, 3516065817,
  3600352804, 4094571909, 275423344, 430227734, 506948616,
  659060556, 883997877, 958139571, 1322822218, 1537002063,
  1747873779, 1955562222, 2024104815, 2227730452, 2361852424,
  2428436474, 2756734187, 3204031479, 3329325298]

/-- The SHA-256 initial hash value. -/
def sha256H0 : List Nat := [
  1779033703, 3144134277, 1013904242,
  2773480762, 1359893119, 2600822924,
  528734635, 1541459225]

/-- SHA-256 message padding: append 0x80, zeros up to 56 mod 64, then the
64-bit big-endian bit length. -/
def sha256Pad (msg : List Nat) : List Nat :=
  let L := msg.length * 8
  let zeros := (64 - (msg.length + 9) % 64) % 64
  msg ++ [0x80] ++ List.replicate zeros 0 ++
    [L / 2 ^ 56 % 256, L / 2 ^ 48 % 256, L / 2 ^ 40 % 256, L / 2 ^ 32 % 256,
     L / 2 ^ 24 % 256, L / 2 ^ 16 % 256, L / 2 ^ 8 % 256, L % 256]

/-- The sixteen big-endian 32-bit words of one 64-byte chunk. -/
def chunkWords (chunk : List Nat) : List Nat :=
  (List.range 16).map (fun i =>
    chunk.getD (4 * i) 0 * 2 ^ 24 + chunk.getD (4 * i + 1) 0 * 2 ^ 16 +
    chunk.getD (4 * i + 2) 0 * 2 ^ 8 + chunk.getD (4 * i + 3) 0)

/-- Extension of the sixteen chunk words to the 64-entry message schedule. -/
def msgSchedule (ws : List Nat) : List Nat :=
  (List.range 48).foldl
    (fun w _ =>
      let n := w.length
      w ++ [w32 (w.getD (n - 16) 0 + ssigma0 (w.getD (n - 15) 0) +
                 w.getD (n - 7) 0 + ssigma1 (w.getD (n - 2) 0))])
    ws

/-- One SHA-256 compression step over a 64-byte chunk. -/
def sha256Compress (h : List Nat) (chunk : List Nat) : List Nat :=
  let w := msgSchedule (chunkWords chunk)
  let s := (List.range 64).foldl
    (fun st i =>
      match st with
      | [a, b, c, d, e, f, g, hh] =>
        let t1 := w32 (hh + sigma1 e + shaCh e f g + sha256K.getD i 0 + w.getD i 0)
        let t2 := w32 (sigma0 a + shaMaj a b c)
        [w32 (t1 + t2), a, b, c, w32 (d + t1), e, f, g]
      | other => other)
    h
  List.zipWith (fun x y => w32 (x + y)) h s

/-- SHA-256 of a byte list, as the 32 digest bytes. -/
def sha256 (msg : List Nat) : List Nat :=
  let padded := sha256Pad msg
  let hs := (List.range (padded.length / 64)).foldl
    (fun h i => sha256Compress h ((padded.drop (64 * i)).take 64))
    sha256H0
  List.flatten (hs.map (fun wd => [wd / 2 ^ 24 % 256, wd / 2 ^ 16 % 256, wd / 2 ^ 8 % 256, wd % 256]))

/-- One lowercase hex digit, as in Go's `%x` verb. -/
def hexDigit (n : Nat) : Nat := if n < 10 then 48 + n else 87 + n

/-- Lowercase hex encoding of a byte list (`fmt.Sprintf("%x", ...)`). -/
def hexEncode (bytes : List Nat) : List Nat :=
  List.flatten (bytes.map (fun b => [hexDigit (b / 16), hexDigit (b % 16)]))

/-! ### The timestamp's seconds component

`CreateHash` computes `time.Unix(int64(block.Timestamp), 0).Second()`: the
`uint64` timestamp is reinterpreted as a signed 64-bit integer (two's
complement wrap-around), and `Second()` of that Unix time is
`int(t.abs() % 60)`, where the `time` package's `abs()` is
`uint64(unixSec + unixToInternal + internalToAbsolute)` — a sum that itself
wraps modulo `2^64` when converted to `uint64` (Go's own comment warns that
times before the absolute zero year "will not compute correctly").  The
process is modelled in UTC (zone offset 0), as the zone offset would otherwise
be added to `unixSec` first. -/

/-- Reinterpretation of a `uint64` value as `int64` (two's complement). -/
def int64OfUInt64 (n : Nat) : Int :=
  if n < 2 ^ 63 then (n : Int) else (n : Int) - 2 ^ 64

/-- `unixToInternal + internalToAbsolute` from Go's `time` package: the offset
from a Unix second count to the package's unsigned "absolute time". -/
def timeAbsOffset : Nat := 9223372028715321600

/-- `Time.abs()` for `time.Unix(sec, 0)` in UTC: the absolute time as a
`uint64`, i.e. the offset sum wrapped modulo `2^64`. -/
def timeAbs (sec : Int) : Nat := ((sec + timeAbsOffset).emod (2 ^ 64)).toNat

/-- The seconds-of-minute component `time.Unix(int64(ts), 0).Second()`:
`int(t.abs() % 60)`. -/
def blockSeconds (ts : Nat) : Nat := timeAbs (int64OfUInt64 ts) % 60

/-- The `%02d` rendering (as bytes) of a value below 100: two ASCII digits. -/
def pad2 (n : Nat) : List Nat := [48 + n / 10, 48 + n % 10]

/-! ### Data model (`types.go`) -/

/-- Model of the `interface{}` payload of a block.  `json bytes` stands for a
Go value whose canonical JSON serialization is `bytes`; `unsupported` stands
for a value `json.Marshal` rejects (a channel, a function, a NaN float, ...).
Serialization of a block fails exactly when its payload is `unsupported`. -/
inductive Payload
  | json (bytes : List Nat)
  | unsupported
deriving DecidableEq, Repr

/-- `Result` from `types.go`: one source's report for a round. -/
structure Result where
  CrawlerName : List Nat
  Data : List Nat
  HasError : Bool
  Timestamp : Int
  Ticker : List Nat
  Hash : List Nat
deriving DecidableEq, Repr

/-- `FullSignedBlock` from `types.go`: one sealed round outcome. -/
structure FullSignedBlock where
  Hash : List Nat
  Height : Nat
  Timestamp : Nat
  Payload : Payload
  PreviousHash : List Nat
  Address : List Nat
  PreviousAddress : List Nat
  Memo : List Nat
  Evidence : List Result
deriving DecidableEq, Repr

/-! ### Canonical serialization (model of `encoding/json`)

`json.Marshal` over the fixed field set of `Result` / `FullSignedBlock` is a
canonical, injective byte encoding, and `json.Unmarshal` inverts it; the model
keeps exactly those properties with a length-prefixed field encoding.  The
decoders return the decoded value together with the unconsumed rest. -/

/-- Length-prefixed encoding of a byte-slice/string field. -/
def encBytes (bs : List Nat) : List Nat := bs.length :: bs

/-- Encoding of a `uint64` field. -/
def encNat (n : Nat) : List Nat := [n]

/-- Encoding of a `bool` field. -/
def encBool (b : Bool) : List Nat := [if b then 1 else 0]

/-- Encoding of an `int64` field (sign byte, then magnitude). -/
def encInt (i : Int) : List Nat := [if i < 0 then 1 else 0, i.natAbs]

/-- Serialization of a `Result` (all its fields always serialize). -/
def encResult (r : Result) : List Nat :=
  encBytes r.CrawlerName ++ encBytes r.Data ++ encBool r.HasError ++
    encInt r.Timestamp ++ encBytes r.Ticker ++ encBytes r.Hash

/-- `json.Marshal` of a `FullSignedBlock`; fails exactly on an unsupported
payload. -/
def jsonMarshal (b : FullSignedBlock) : Option (List Nat) :=
  match b.Payload with
  | .unsupported => none
  | .json pbs =>
    some (encBytes b.Hash ++ encNat b.Height ++ encNat b.Timestamp ++
      encBytes pbs ++ encBytes b.PreviousHash ++ encBytes b.Address ++
      encBytes b.PreviousAddress ++ encBytes b.Memo ++
      encNat b.Evidence.length ++ List.flatten (b.Evidence.map encResult))

/-- Decoder for `encBytes`. -/
def decBytes : List Nat → Option (List Nat × List Nat)
  | [] => none
  | n :: rest => if n ≤ rest.length then some (rest.take n, rest.drop n) else none

/-- Decoder for `encNat`. -/
def decNat : List Nat → Option (Nat × List Nat)
  | [] => none
  | n :: rest => some (n, rest)

/-- Decoder for `encBool`. -/
def decBool : List Nat → Option (Bool × List Nat)
  | [] => none
  | n :: rest => some (if n = 1 then true else false, rest)

/-- Decoder for `encInt`. -/
def decInt : List Nat → Option (Int × List Nat)
  | s :: m :: rest => some (if s = 1 then -(m : Int) else (m : Int), rest)
  | _ => none

/-- Decoder for one serialized `Result`. -/
def decResult (l : List Nat) : Option (Result × List Nat) := do
  let (nm, l) ← decBytes l
  let (dt, l) ← decBytes l
  let (he, l) ← decBool l
  let (ts, l) ← decInt l
  let (tk, l) ← decBytes l
  let (hs, l) ← decBytes l
  some ({ CrawlerName := nm, Data := dt, HasError := he, Timestamp := ts,
          Ticker := tk, Hash := hs }, l)

/-- Decoder for a count-prefixed list of serialized `Result`s. -/
def decResults : Nat → List Nat → Option (List Result × List Nat)
  | 0, l => some ([], l)
  | n + 1, l => do
    let (r, l) ← decResult l
    let (rs, l) ← decResults n l
    some (r :: rs, l)

/-- `json.Unmarshal` into a `FullSignedBlock`: the full input must be one
serialized block. -/
def jsonUnmarshal (l : List Nat) : Option FullSignedBlock := do
  let (hash, l) ← decBytes l
  let (height, l) ← decNat l
  let (ts, l) ← decNat l
  let (pbs, l) ← decBytes l
  let (prevHash, l) ← decBytes l
  let (addr, l) ← decBytes l
  let (prevAddr, l) ← decBytes l
  let (memo, l) ← decBytes l
  let (cnt, l) ← decNat l
  let (ev, l) ← decResults cnt l
  if l = [] then
    some { Hash := hash, Height := height, Timestamp := ts, Payload := .json pbs,
           PreviousHash := prevHash, Address := addr, PreviousAddress := prevAddr,
           Memo := memo, Evidence := ev }
  else none

/-! ### The hashing protocol (`calculateHash`, `CreateHash`) -/

/-- `calculateHash` from `types.go`, taking the (possibly failed) serialized
form of its polymorphic argument: prepend the service marker and a ':'
(`fmt.Sprintf("%s:%s", ServiceHash, bytes)`), then hex-encoded SHA-256 twice. -/
def calculateHash (marshalled : Option (List Nat)) : Except String (List Nat) :=
  match marshalled with
  | none => .error "json: unsupported value"
  | some bytes =>
    let rawContent := ServiceHash ++ [58] ++ bytes
    let doubleHash := hexEncode (sha256 rawContent)
    .ok (hexEncode (sha256 doubleHash))

/-- `FullSignedBlock.CreateHash` from `types.go`: clear the hash field, compute
`calculateHash` over the serialized block, install it when no error occurred,
then unconditionally re-prefix the hash field with `BlockHashPrefix` and the
two seconds digits; returns the updated block and the error. -/
def CreateHash (block : FullSignedBlock) : FullSignedBlock × Option String :=
  let b := { block with Hash := ([] : List Nat) }
  let hashRes := calculateHash (jsonMarshal b)
  let b := match hashRes with
    | .ok h => { b with Hash := h }
    | .error _ => b
  let seconds := blockSeconds b.Timestamp
  let b := { b with Hash := BlockHashPrefix ++ pad2 seconds ++ b.Hash }
  (b, match hashRes with | .ok _ => none | .error e => some e)

/-- `Result.CreateHash` from `types.go`: clear the hash field, compute
`calculateHash` over the serialized result, install it when no error occurred
(a `Result` always serializes); returns the updated result and the error. -/
def ResultCreateHash (result : Result) : Result × Option String :=
  let r := { result with Hash := ([] : List Nat) }
  let hashRes := calculateHash (some (encResult r))
  let r := match hashRes with
    | .ok h => { r with Hash := h }
    | .error _ => r
  (r, match hashRes with | .ok _ => none | .error e => some e)

/-! ### The ledger store (`database` part of `types.go`)

The badger backend is modelled from its documented behavior: a key-value map,
`Txn.Set` failing on an empty or oversized key or an oversized value,
`Txn.Get` failing when the key is absent, and `DB.Update` committing the
transaction's writes only when the closure returns no error (all-or-nothing),
`DB.View` running a read-only closure. -/

/-- The key-value map of the store. -/
def KV : Type := List Nat → Option (List Nat)

/-- The empty store. -/
def emptyKV : KV := fun _ => none

/-- Model of badger's maximum key size. -/
def maxKeySize : Nat := 65000

/-- Model of badger's maximum value size. -/
def maxValueSize : Nat := 1 <<< 20

/-- The condition under which the modelled `Txn.Set` fails. -/
def setFails (key value : List Nat) : Prop :=
  key = [] ∨ maxKeySize < key.length ∨ maxValueSize < value.length

instance (key value : List Nat) : Decidable (setFails key value) := by
  unfold setFails; infer_instance

/-- `Txn.Set`: record a pending write, or fail on a bad key/value. -/
def txnSet (txn : KV) (key value : List Nat) : Except String KV :=
  if setFails key value then .error "Invalid key or value"
  else .ok (fun q => if q = key then some value else txn q)

/-- `Txn.Get` followed by `ValueCopy`: the stored value, or a not-found error. -/
def txnGet (txn : KV) (key : List Nat) : Except String (List Nat) :=
  match txn key with
  | some v => .ok v
  | none => .error "Key not found"

/-- `DB.Update`: run the closure on the store and commit its writes only when
it returns no error; otherwise the store is unchanged and the error surfaces. -/
def dbUpdate (kv : KV) (f : KV → Except String KV) : KV × Option String :=
  match f kv with
  | .ok kv' => (kv', none)
  | .error e => (kv, some e)

/-- `DB.View`: run a read-only closure on the store. -/
def dbView {α : Type} (kv : KV) (f : KV → Except String α) : Except String α :=
  f kv

/-- `HashKeyPrefix` from `types.go`. -/
def HashKeyPrefix : Nat := 0x1

/-- `TimestampKeyPrefix` from `types.go`. -/
def TimestampKeyPrefix : Nat := 0x2

/-- `HeightKeyPrefix` from `types.go`. -/
def HeightKeyPrefix : Nat := 0x3

/-- `FixedKeyPrefix` from `types.go` (any other key). -/
def FixedKeyPrefix : Nat := 0xFF

/-- `binary.LittleEndian.PutUint64`: the eight little-endian bytes of a
`uint64` key. -/
def le64 (k : Nat) : List Nat :=
  [k % 256, k / 2 ^ 8 % 256, k / 2 ^ 16 % 256, k / 2 ^ 24 % 256,
   k / 2 ^ 32 % 256, k / 2 ^ 40 % 256, k / 2 ^ 48 % 256, k / 2 ^ 56 % 256]

/-- The key bytes built by `storeUIntIndex`: the prefix byte prepended to the
little-endian encoding of the numeric key. -/
def storeUIntKey (pfx : Nat) (key : Nat) : List Nat := pfx :: le64 key

/-- The key bytes built by `readUIntIndex` (the same construction, duplicated
in the source). -/
def readUIntKey (pfx : Nat) (key : Nat) : List Nat := pfx :: le64 key

/-- The key bytes built by `storeStringIndex`: the prefix byte prepended to the
raw string bytes. -/
def storeStringKey (pfx : Nat) (key : List Nat) : List Nat := pfx :: key

/-- The key bytes built by `readStringIndex` (the same construction, duplicated
in the source). -/
def readStringKey (pfx : Nat) (key : List Nat) : List Nat := pfx :: key

/-- `storeUIntIndex` from `types.go` (the `prefix` parameter is named `pfx`
here). -/
def storeUIntIndex (txn : KV) (key : Nat) (value : List Nat) (pfx : Nat) :
    Except String KV :=
  txnSet txn (storeUIntKey pfx key) value

/-- `readUIntIndex` from `types.go`. -/
def readUIntIndex (txn : KV) (key : Nat) (pfx : Nat) :
    Except String (List Nat) :=
  txnGet txn (readUIntKey pfx key)

/-- `storeStringIndex` from `types.go`. -/
def storeStringIndex (txn : KV) (key : List Nat) (value : List Nat) (pfx : Nat) :
    Except String KV :=
  txnSet txn (storeStringKey pfx key) value

/-- `readStringIndex` from `types.go`. -/
def readStringIndex (txn : KV) (key : List Nat) (pfx : Nat) :
    Except String (List Nat) :=
  txnGet txn (readStringKey pfx key)

/-- `Store.StoreBlock` from `types.go`: serialize the block (the `Marshal`
error is discarded by the source — `err` is immediately overwritten — so a
failed serialization stores empty bytes), then, in one `Update` transaction,
write hash → serialized block, timestamp → hash and height → hash, stopping
at the first failing sub-write. -/
def StoreBlock (kv : KV) (block : FullSignedBlock) : KV × Option String :=
  let bytes := (jsonMarshal block).getD []
  dbUpdate kv (fun txn =>
    match storeStringIndex txn block.Hash bytes HashKeyPrefix with
    | .error e => .error e
    | .ok txn =>
      match storeUIntIndex txn block.Timestamp block.Hash TimestampKeyPrefix with
      | .error e => .error e
      | .ok txn =>
        match storeUIntIndex txn block.Height block.Hash HeightKeyPrefix with
        | .error e => .error e
        | .ok txn => .ok txn)

/-- `Store.GetBlock` from `types.go`: primary lookup by hash, then
deserialize. -/
def GetBlock (kv : KV) (hash : List Nat) : Except String FullSignedBlock :=
  dbView kv (fun txn => do
    let bytes ← readStringIndex txn hash HashKeyPrefix
    match jsonUnmarshal bytes with
    | some block => .ok block
    | none => .error "json: cannot unmarshal")

/-- `Store.FindBlockByTimestamp` from `types.go`: timestamp index → hash,
then primary lookup, then deserialize. -/
def FindBlockByTimestamp (kv : KV) (timestamp : Nat) :
    Except String FullSignedBlock :=
  dbView kv (fun txn => do
    let hashBytes ← readUIntIndex txn timestamp TimestampKeyPrefix
    let bytes ← readStringIndex txn hashBytes HashKeyPrefix
    match jsonUnmarshal bytes with
    | some block => .ok block
    | none => .error "json: cannot unmarshal")

/-- `Store.FindBlockByHeight` from `types.go`: height index → hash, then
primary lookup, then deserialize. -/
def FindBlockByHeight (kv : KV) (height : Nat) :
    Except String FullSignedBlock :=
  dbView kv (fun txn => do
    let hashBytes ← readUIntIndex txn height HeightKeyPrefix
    let bytes ← readStringIndex txn hashBytes HashKeyPrefix
    match jsonUnmarshal bytes with
    | some block => .ok block
    | none => .error "json: cannot unmarshal")

/-- `Store.StoreValue` from `types.go`: a generic write under the 0xFF
namespace. -/
def StoreValue (kv : KV) (key : List Nat) (value : List Nat) : KV × Option String :=
  dbUpdate kv (fun txn => storeStringIndex txn key value FixedKeyPrefix)

/-- `Store.GetValue` from `types.go`: a generic read under the 0xFF
namespace. -/
def GetValue (kv : KV) (key : List Nat) : Except String (List Nat) :=
  dbView kv (fun txn => readStringIndex txn key FixedKeyPrefix)

end Darkmatter

deriving instance DecidableEq for Except

namespace Darkmatter

/-! ### Serialization roundtrip -/

lemma decBytes_enc (bs rest : List Nat) :
    decBytes (encBytes bs ++ rest) = some (bs, rest) := by
  simp [encBytes, decBytes, List.take_left, List.drop_left]

lemma decNat_enc (n : Nat) (rest : List Nat) :
    decNat (encNat n ++ rest) = some (n, rest) := by
  simp [encNat, decNat]

lemma decBool_enc (b : Bool) (rest : List Nat) :
    decBool (encBool b ++ rest) = some (b, rest) := by
  cases b <;> simp [encBool, decBool]

lemma decInt_enc (i : Int) (rest : List Nat) :
    decInt (encInt i ++ rest) = some (i, rest) := by
  by_cases h : i < 0
  · simp [encInt, decInt, h, Int.ofNat_natAbs_of_nonpos (le_of_lt h)]
  · simp [encInt, decInt, h, Int.natAbs_of_nonneg (not_lt.mp h)]

lemma decResult_enc (r : Result) (rest : List Nat) :
    decResult (encResult r ++ rest) = some (r, rest) := by
  simp only [encResult, decResult, List.append_assoc, decBytes_enc, decNat_enc,
    decBool_enc, decInt_enc, Option.bind_eq_bind, Option.some_bind]

lemma decResults_enc (rs : List Result) (rest : List Nat) :
    decResults rs.length (List.flatten (rs.map encResult) ++ rest) = some (rs, rest) := by
  induction rs generalizing rest with
  | nil => simp [decResults]
  | cons r rs ih =>
    simp only [List.map_cons, List.flatten_cons, List.length_cons, decResults,
      List.append_assoc, decResult_enc, Option.bind_eq_bind, Option.some_bind, ih]

/-- A successfully serialized block deserializes back to itself: the model of
`json.Unmarshal` inverting `json.Marshal` on the block's fixed field set. -/
theorem jsonUnmarshal_jsonMarshal (b : FullSignedBlock) (bs : List Nat)
    (h : jsonMarshal b = some bs) : jsonUnmarshal bs = some b := by
  obtain ⟨hash, height, ts, payload, ph, ad, pa, memo, ev⟩ := b
  cases payload with
  | unsupported => simp [jsonMarshal] at h
  | json pbs =>
    simp only [jsonMarshal] at h
    obtain rfl := Option.some_inj.mp h
    have hflat : List.flatten (ev.map encResult) =
        List.flatten (ev.map encResult) ++ [] := by simp
    simp only [List.append_assoc]
    rw [jsonUnmarshal]
    rw [hflat]
    simp only [decBytes_enc, decNat_enc, decResults_enc, Option.bind_eq_bind,
      Option.some_bind]
    simp

end Darkmatter

namespace Darkmatter

lemma exceptOkBind {α β : Type} (a : α) (f : α → Except String β) :
    (Except.ok a >>= f) = f a := rfl

lemma exceptErrBind {α β : Type} (e : String) (f : α → Except String β) :
    (Except.error e >>= f) = Except.error e := rfl

/-- C1: after `StoreBlock b` succeeds on a serializable block, each of
`GetBlock b.Hash`, `FindBlockByTimestamp b.Timestamp` and
`FindBlockByHeight b.Height` returns a block equal to `b`.  (This holds for
every prior store content — the three writes overwrite their keys — so in
particular for stores in which no other block shares `b`'s hash, timestamp
or height, as the claim assumes.) -/
theorem storeBlock_roundTrip (kv : KV) (b : FullSignedBlock) (bs : List Nat)
    (hm : jsonMarshal b = some bs)
    (hs : (StoreBlock kv b).2 = none) :
    GetBlock (StoreBlock kv b).1 b.Hash = .ok b ∧
    FindBlockByTimestamp (StoreBlock kv b).1 b.Timestamp = .ok b ∧
    FindBlockByHeight (StoreBlock kv b).1 b.Height = .ok b := by
  have hun := jsonUnmarshal_jsonMarshal b bs hm
  simp only [StoreBlock, hm, Option.getD_some, dbUpdate, storeStringIndex,
    storeUIntIndex, txnSet] at hs ⊢
  split_ifs at hs ⊢ with h1 h2 h3
  refine ⟨?_, ?_, ?_⟩
  · simp [GetBlock, dbView, readStringIndex, txnGet, readStringKey,
      storeStringKey, storeUIntKey, HashKeyPrefix, TimestampKeyPrefix,
      HeightKeyPrefix, hun, exceptOkBind]
  · simp [FindBlockByTimestamp, dbView, readStringIndex, readUIntIndex, txnGet,
      readStringKey, readUIntKey, storeStringKey, storeUIntKey, HashKeyPrefix,
      TimestampKeyPrefix, HeightKeyPrefix, hun, exceptOkBind]
  · simp [FindBlockByHeight, dbView, readStringIndex, readUIntIndex, txnGet,
      readStringKey, readUIntKey, storeStringKey, storeUIntKey, HashKeyPrefix,
      TimestampKeyPrefix, HeightKeyPrefix, hun, exceptOkBind]

/-- The concrete block used by the C1 witness. -/
def c1Block : FullSignedBlock :=
  { Hash := [7], Height := 1, Timestamp := 2, Payload := Payload.json [],
    PreviousHash := [], Address := [], PreviousAddress := [], Memo := [],
    Evidence := [] }

/-- Witness for C1: the round trip evaluated at a concrete block on the empty
store. -/
theorem storeBlock_roundTrip_witness :
    GetBlock (StoreBlock emptyKV c1Block).1 c1Block.Hash = .ok c1Block ∧
    FindBlockByTimestamp (StoreBlock emptyKV c1Block).1 c1Block.Timestamp =
      .ok c1Block ∧
    FindBlockByHeight (StoreBlock emptyKV c1Block).1 c1Block.Height =
      .ok c1Block :=
  storeBlock_roundTrip emptyKV c1Block [1, 7, 1, 2, 0, 0, 0, 0, 0, 0]
    (by decide) (by decide)

/-- C8: the key bytes built on store and on read are identical (one prefix
byte, then the fixed-width 8-byte little-endian encoding of a numeric key, or
the raw string bytes), and keys built with distinct one-byte prefixes — hash
0x1, timestamp 0x2, height 0x3, generic 0xFF are pairwise distinct — are never
byte-equal. -/
theorem indexKeys_consistent_disjoint :
    (∀ pfx k, storeUIntKey pfx k = readUIntKey pfx k) ∧
    (∀ pfx s, storeStringKey pfx s = readStringKey pfx s) ∧
    (∀ pfx k, storeUIntKey pfx k = pfx :: le64 k ∧ (le64 k).length = 8) ∧
    (HashKeyPrefix ≠ TimestampKeyPrefix ∧ HashKeyPrefix ≠ HeightKeyPrefix ∧
     HashKeyPrefix ≠ FixedKeyPrefix ∧ TimestampKeyPrefix ≠ HeightKeyPrefix ∧
     TimestampKeyPrefix ≠ FixedKeyPrefix ∧ HeightKeyPrefix ≠ FixedKeyPrefix) ∧
    (∀ p q : Nat, p ≠ q → ∀ (k k' : Nat) (s s' : List Nat),
      storeUIntKey p k ≠ storeUIntKey q k' ∧
      storeUIntKey p k ≠ storeStringKey q s ∧
      storeStringKey p s ≠ storeUIntKey q k ∧
      storeStringKey p s ≠ readStringKey q s') := by
  refine ⟨fun _ _ => rfl, fun _ _ => rfl, fun _ k => ⟨rfl, rfl⟩, ?_, ?_⟩
  · simp [HashKeyPrefix, TimestampKeyPrefix, HeightKeyPrefix, FixedKeyPrefix]
  · intro p q hpq k k' s s'
    refine ⟨?_, ?_, ?_, ?_⟩ <;>
      simp [storeUIntKey, storeStringKey, readStringKey, hpq]

/-- Witness for C8: distinct prefixes at concrete keys. -/
theorem indexKeys_consistent_disjoint_witness :
    storeUIntKey TimestampKeyPrefix 5 ≠ storeUIntKey HeightKeyPrefix 5 ∧
    storeStringKey HashKeyPrefix [3] ≠ readStringKey FixedKeyPrefix [3] :=
  ⟨(indexKeys_consistent_disjoint.2.2.2.2 TimestampKeyPrefix HeightKeyPrefix
      (by decide) 5 5 [3] [3]).1,
   ((indexKeys_consistent_disjoint.2.2.2.2 HashKeyPrefix FixedKeyPrefix
      (by decide) 5 5 [3] [3]).2.2.2)⟩

/-- C9: each lookup resolves through its index to the hash and then to the
primary entry (`FindBlockBy*` on an index hit equals `GetBlock` of the stored
hash), and returns an error whenever the index entry or the primary hash
entry is absent. -/
theorem lookups_resolve_and_error (kv : KV) (hash hb : List Nat) (ts hgt : Nat) :
    (kv (readStringKey HashKeyPrefix hash) = none →
      (GetBlock kv hash).isOk = false) ∧
    (kv (readUIntKey TimestampKeyPrefix ts) = none →
      (FindBlockByTimestamp kv ts).isOk = false) ∧
    (kv (readUIntKey TimestampKeyPrefix ts) = some hb →
      kv (readStringKey HashKeyPrefix hb) = none →
      (FindBlockByTimestamp kv ts).isOk = false) ∧
    (kv (readUIntKey HeightKeyPrefix hgt) = none →
      (FindBlockByHeight kv hgt).isOk = false) ∧
    (kv (readUIntKey HeightKeyPrefix hgt) = some hb →
      kv (readStringKey HashKeyPrefix hb) = none →
      (FindBlockByHeight kv hgt).isOk = false) ∧
    (kv (readUIntKey TimestampKeyPrefix ts) = some hb →
      FindBlockByTimestamp kv ts = GetBlock kv hb) ∧
    (kv (readUIntKey HeightKeyPrefix hgt) = some hb →
      FindBlockByHeight kv hgt = GetBlock kv hb) := by
  refine ⟨?_, ?_, ?_, ?_, ?_, ?_, ?_⟩ <;> intro h1
  · simp [GetBlock, dbView, readStringIndex, txnGet, h1, Except.isOk,
      Except.toBool, exceptErrBind]
  · simp [FindBlockByTimestamp, dbView, readUIntIndex, txnGet, h1,
      Except.isOk, Except.toBool, exceptErrBind]
  · intro h2
    simp [FindBlockByTimestamp, dbView, readUIntIndex, readStringIndex, txnGet,
      h1, h2, Except.isOk, Except.toBool, exceptOkBind, exceptErrBind]
  · simp [FindBlockByHeight, dbView, readUIntIndex, txnGet, h1,
      Except.isOk, Except.toBool, exceptErrBind]
  · intro h2
    simp [FindBlockByHeight, dbView, readUIntIndex, readStringIndex, txnGet,
      h1, h2, Except.isOk, Except.toBool, exceptOkBind, exceptErrBind]
  · simp [FindBlockByTimestamp, GetBlock, dbView, readUIntIndex,
      readStringIndex, txnGet, h1, exceptOkBind]
  · simp [FindBlockByHeight, GetBlock, dbView, readUIntIndex,
      readStringIndex, txnGet, h1, exceptOkBind]

/-- The one-entry store used by the C9 witness: a timestamp index entry for
timestamp 5 pointing at hash `[9]`, with no primary entry. -/
def c9KV : KV := fun k =>
  if k = readUIntKey TimestampKeyPrefix 5 then some [9] else none

/-- Witness for C9: a missing primary entry, a dangling timestamp index, and
the index-to-primary resolution, all at concrete inputs. -/
theorem lookups_resolve_and_error_witness :
    (GetBlock c9KV [1, 2]).isOk = false ∧
    (FindBlockByTimestamp c9KV 5).isOk = false ∧
    FindBlockByTimestamp c9KV 5 = GetBlock c9KV [9] :=
  ⟨(lookups_resolve_and_error c9KV [1, 2] [9] 5 0).1 (by decide),
   (lookups_resolve_and_error c9KV [1, 2] [9] 5 0).2.2.1 (by decide) (by decide),
   (lookups_resolve_and_error c9KV [1, 2] [9] 5 0).2.2.2.2.2.1 (by decide)⟩

/-- C3: `StoreBlock` writes its three index entries all-or-nothing.  If any of
the three sub-writes fails, an error is returned and the store is unchanged
(hence lookups on the three keys find exactly what they found before); if no
error is returned, all three entries are present. -/
theorem storeBlock_atomic (kv : KV) (b : FullSignedBlock) :
    ((setFails (storeStringKey HashKeyPrefix b.Hash) ((jsonMarshal b).getD []) ∨
      setFails (storeUIntKey TimestampKeyPrefix b.Timestamp) b.Hash ∨
      setFails (storeUIntKey HeightKeyPrefix b.Height) b.Hash) →
      (StoreBlock kv b).2.isSome = true ∧ (StoreBlock kv b).1 = kv) ∧
    ((StoreBlock kv b).2 = none →
      (StoreBlock kv b).1 (storeStringKey HashKeyPrefix b.Hash) =
        some ((jsonMarshal b).getD []) ∧
      (StoreBlock kv b).1 (storeUIntKey TimestampKeyPrefix b.Timestamp) =
        some b.Hash ∧
      (StoreBlock kv b).1 (storeUIntKey HeightKeyPrefix b.Height) =
        some b.Hash) := by
  simp only [StoreBlock, dbUpdate, storeStringIndex, storeUIntIndex, txnSet]
  by_cases h1 : setFails (storeStringKey HashKeyPrefix b.Hash) ((jsonMarshal b).getD [])
  · simp [h1]
  · by_cases h2 : setFails (storeUIntKey TimestampKeyPrefix b.Timestamp) b.Hash
    · simp [h1, h2]
    · by_cases h3 : setFails (storeUIntKey HeightKeyPrefix b.Height) b.Hash
      · simp [h1, h2, h3]
      · simp only [h1, h2, h3, if_false, or_false, false_or]
        constructor
        · intro hc
          exact absurd hc (by simp [h1, h2, h3])
        · intro _
          refine ⟨?_, ?_, ?_⟩ <;>
            simp [storeStringKey, storeUIntKey, HashKeyPrefix,
              TimestampKeyPrefix, HeightKeyPrefix]

/-- The concrete block used by the C3 witness: its hash is longer than the
backend's maximum key size, so the first sub-write fails. -/
def c3Block : FullSignedBlock :=
  { Hash := List.replicate 65001 7, Height := 1, Timestamp := 2,
    Payload := Payload.json [], PreviousHash := [], Address := [],
    PreviousAddress := [], Memo := [], Evidence := [] }

/-- Witness for C3: on a block whose hash key exceeds the key-size limit,
`StoreBlock` reports an error and leaves the store untouched. -/
theorem storeBlock_atomic_witness :
    (StoreBlock emptyKV c3Block).2.isSome = true ∧
    (StoreBlock emptyKV c3Block).1 = emptyKV := by
  have hk : maxKeySize < (storeStringKey HashKeyPrefix c3Block.Hash).length := by
    rw [show c3Block.Hash = List.replicate 65001 7 from rfl, storeStringKey,
      List.length_cons, List.length_replicate, maxKeySize]
    omega
  exact (storeBlock_atomic emptyKV c3Block).1 (Or.inl (Or.inr (Or.inl hk)))

end Darkmatter

namespace Darkmatter

/-! ### The hashing claims -/

lemma bs0 : blockSeconds (2 ^ 64 - 60) = 0 := by decide

/-- The concrete block of the C2 counterexample: at `uint64` timestamp
`2^64 - 60` the `time` package's absolute-time sum exceeds `2^64` and wraps,
so `Second()` returns 0 while the timestamp's seconds-of-minute is 16. -/
def c2Block : FullSignedBlock :=
  { Hash := [], Height := 0, Timestamp := 2 ^ 64 - 60,
    Payload := Payload.json [], PreviousHash := [], Address := [],
    PreviousAddress := [], Memo := [], Evidence := [] }

lemma c2_marshal : jsonMarshal { c2Block with Hash := ([] : List Nat) } =
    some [0, 0, 2 ^ 64 - 60, 0, 0, 0, 0, 0, 0] := by decide

/-- Counterexample to C2 as stated: at timestamp `2^64 - 60` the stored hash
is not the "dd" marker followed by the two-digit seconds-of-minute of the
block's timestamp (`ts mod 60 = 16`) and the base hash — the code's
`Second()` computation, whose wrapped absolute-time sum comes out 60 short of
a multiple of `2^64`, embeds 00 there. -/
theorem createHash_seconds_counterexample :
    (CreateHash c2Block).1.Hash ≠
      BlockHashPrefix ++ pad2 (c2Block.Timestamp % 60) ++
        (match jsonMarshal { c2Block with Hash := ([] : List Nat) } with
         | some bytes => hexEncode (sha256 (hexEncode (sha256
             (ServiceHash ++ [58] ++ bytes))))
         | none => []) := by
  intro h
  rw [c2_marshal] at h
  simp only [CreateHash, calculateHash, c2_marshal] at h
  rw [show c2Block.Timestamp = 2 ^ 64 - 60 from rfl, bs0] at h
  rw [show ((2:Nat) ^ 64 - 60) % 60 = 16 from by decide] at h
  exact absurd (List.append_cancel_right h) (by decide)

/-- For timestamps whose absolute-time sum does not wrap modulo `2^64` —
everything below `2^63 + 8139454208`, hence in particular every timestamp
representable as a non-negative `int64` — `Second()` is the timestamp's
seconds-of-minute. -/
lemma blockSeconds_eq_mod (ts : Nat) (h : ts < 2 ^ 63 + 8139454208) :
    blockSeconds ts = ts % 60 := by
  unfold blockSeconds timeAbs timeAbsOffset int64OfUInt64
  split_ifs with h1 <;>
  · rw [show ∀ a : Int, a.emod (2 ^ 64) = a % 2 ^ 64 from fun _ => rfl]
    omega

/-- C2 (amended): sealing sets the hash field to the double hash — the
hex-encoded SHA-256 of the hex-encoded SHA-256 of the service marker, ':',
and the serialization of the object with its hash field cleared.  For Blocks
the stored hash is that base hash (empty when serialization fails, cf. C10)
prefixed by "dd" and two zero-padded decimal digits: the seconds value of
Go's wrapped absolute-time computation for the timestamp reinterpreted as a
signed 64-bit integer, which equals `Timestamp mod 60` for every timestamp
below `2^63 + 8139454208` (and differs only beyond that wrap boundary). -/
theorem createHash_formula (r : Result) (b : FullSignedBlock) :
    (ResultCreateHash r).1.Hash =
      hexEncode (sha256 (hexEncode (sha256
        (ServiceHash ++ [58] ++ encResult { r with Hash := ([] : List Nat) })))) ∧
    (CreateHash b).1.Hash =
      BlockHashPrefix ++ pad2 (blockSeconds b.Timestamp) ++
        (match jsonMarshal { b with Hash := ([] : List Nat) } with
         | some bytes => hexEncode (sha256 (hexEncode (sha256
             (ServiceHash ++ [58] ++ bytes))))
         | none => []) ∧
    (pad2 (blockSeconds b.Timestamp)).length = 2 ∧
    blockSeconds b.Timestamp < 60 ∧
    (b.Timestamp < 2 ^ 63 + 8139454208 →
      blockSeconds b.Timestamp = b.Timestamp % 60) := by
  refine ⟨?_, ?_, rfl, Nat.mod_lt _ (by norm_num),
    blockSeconds_eq_mod b.Timestamp⟩
  · simp [ResultCreateHash, calculateHash]
  · cases hp : jsonMarshal { b with Hash := ([] : List Nat) } with
    | none => simp [CreateHash, calculateHash, hp]
    | some bytes => simp [CreateHash, calculateHash, hp]

/-- The concrete result of the C2 witness. -/
def c2wResult : Result :=
  { CrawlerName := [], Data := [], HasError := false, Timestamp := 0,
    Ticker := [], Hash := [] }

/-- The concrete block of the C2 witness: a serializable block whose
timestamp (125) lies below the wrap boundary. -/
def c2wBlock : FullSignedBlock :=
  { Hash := [], Height := 0, Timestamp := 125, Payload := Payload.json [],
    PreviousHash := [], Address := [], PreviousAddress := [], Memo := [],
    Evidence := [] }

/-- Witness for C2 (amended): at a concrete timestamp below the wrap boundary
the embedded seconds digits are the timestamp's seconds-of-minute, two digits
long. -/
theorem createHash_formula_witness :
    blockSeconds c2wBlock.Timestamp = c2wBlock.Timestamp % 60 ∧
    (pad2 (blockSeconds c2wBlock.Timestamp)).length = 2 :=
  ⟨(createHash_formula c2wResult c2wBlock).2.2.2.2 (by decide),
   (createHash_formula c2wResult c2wBlock).2.2.1⟩

/-- C10: when serialization inside `CreateHash` fails, the hash field is
nevertheless overwritten — with the "dd" marker and the two seconds digits
followed by an empty base hash — and the error is returned. -/
theorem createHash_error_path (b : FullSignedBlock)
    (hm : jsonMarshal { b with Hash := ([] : List Nat) } = none) :
    (CreateHash b).2.isSome = true ∧
    (CreateHash b).1.Hash = BlockHashPrefix ++ pad2 (blockSeconds b.Timestamp) := by
  simp [CreateHash, calculateHash, hm]

/-- The concrete block of the C10 witness: an unsupported payload makes
`json.Marshal` fail. -/
def c10Block : FullSignedBlock :=
  { Hash := [1], Height := 3, Timestamp := 65, Payload := Payload.unsupported,
    PreviousHash := [], Address := [], PreviousAddress := [], Memo := [],
    Evidence := [] }

/-- Witness for C10 at a concrete non-serializable block. -/
theorem createHash_error_path_witness :
    (CreateHash c10Block).2.isSome = true ∧
    (CreateHash c10Block).1.Hash =
      BlockHashPrefix ++ pad2 (blockSeconds c10Block.Timestamp) :=
  createHash_error_path c10Block (by decide)

end Darkmatter

namespace Shamir

/-! ### The Shamir claims -/

lemma getD_set_ne (l : List Nat) (n m v : Nat) (h : m ≠ n) :
    (l.set n v).getD m 0 = l.getD m 0 := by
  rw [List.getD_eq_getElem?_getD, List.getD_eq_getElem?_getD,
    List.getElem?_set_ne (by omega : n ≠ m)]

lemma getD_set_self (l : List Nat) (n v : Nat) (h : n < l.length) :
    (l.set n v).getD n 0 = v := by
  rw [List.getD_eq_getElem (l.set n v) 0 (by simpa using h)]
  exact List.getElem_set_self _

lemma foldl_splitStep_length (l : List (Nat × Nat)) (len threshold : Nat)
    (rnd : Nat → Nat → Nat) (x : Nat) (share : List Nat) :
    (l.foldl (splitStep len threshold rnd x) share).length = share.length := by
  induction l generalizing share with
  | nil => rfl
  | cons a l ih => rw [List.foldl_cons, ih]; simp [splitStep]

/-- The last iteration of `Split`'s byte loop wins: after folding over a
non-empty byte list, the share's bytes `len+1` and `len+2` hold the intercept
and second coefficient of the final polynomial. -/
lemma foldl_splitStep_tail (l : List (Nat × Nat)) (a : Nat × Nat)
    (len threshold : Nat) (rnd : Nat → Nat → Nat) (x : Nat) (share : List Nat)
    (hlen : share.length = len + 3) :
    ((l.concat a).foldl (splitStep len threshold rnd x) share).getD (len + 1) 0 =
      (makePolynomial a.2 (threshold - 1) (rnd a.1)).getD 0 0 ∧
    ((l.concat a).foldl (splitStep len threshold rnd x) share).getD (len + 2) 0 =
      (makePolynomial a.2 (threshold - 1) (rnd a.1)).getD 1 0 := by
  rw [List.concat_eq_append, List.foldl_concat]
  have hs' : (l.foldl (splitStep len threshold rnd x) share).length = len + 3 := by
    rw [foldl_splitStep_length]; exact hlen
  set s' := l.foldl (splitStep len threshold rnd x) share with hdef
  have hexp : splitStep len threshold rnd x s' a =
      ((s'.set a.1 (evaluate (makePolynomial a.2 (threshold - 1) (rnd a.1)) x)).set
        (len + 1) ((makePolynomial a.2 (threshold - 1) (rnd a.1)).getD 0 0)).set
        (len + 2) ((makePolynomial a.2 (threshold - 1) (rnd a.1)).getD 1 0) := rfl
  rw [hexp]
  constructor
  · rw [getD_set_ne _ (len + 2) (len + 1) _ (by omega)]
    exact getD_set_self _ _ _ (by simp [hs'])
  · exact getD_set_self _ _ _ (by simp [hs'])

/-- Bytes `len+1` and `len+2` of every share are the intercept (= the last
secret byte) and the second coefficient of the polynomial of the last secret
byte. -/
lemma splitShare_tail (secret : List Nat) (hs : secret ≠ []) (threshold : Nat)
    (rnd : Nat → Nat → Nat) (x : Nat) :
    (splitShare secret threshold rnd x).getD (secret.length + 1) 0 =
      secret.getD (secret.length - 1) 0 ∧
    (splitShare secret threshold rnd x).getD (secret.length + 2) 0 =
      (makePolynomial (secret.getD (secret.length - 1) 0) (threshold - 1)
        (rnd (secret.length - 1))).getD 1 0 := by
  obtain ⟨s', a, rfl⟩ := (secret.eq_nil_or_concat).resolve_left hs
  have henum : (s'.concat a).enum = s'.enum.concat (s'.length, a) := by
    rw [List.concat_eq_append, List.enum_append]
    simp
  have hlen1 : (s'.concat a).length = s'.length + 1 := by simp
  have hlast : (s'.concat a).getD ((s'.concat a).length - 1) 0 = a := by
    simp only [hlen1, Nat.add_sub_cancel]
    rw [List.getD_eq_getElem _ _ (by simp)]
    simp [List.concat_eq_append,
      List.getElem_append_right (by omega : s'.length ≤ s'.length)]
  rw [splitShare, henum]
  have hmain := foldl_splitStep_tail s'.enum (s'.length, a) (s'.concat a).length
    threshold rnd x
    ((List.replicate ((s'.concat a).length + 3) 0).set (s'.concat a).length x)
    (by simp)
  rw [hlast]
  refine ⟨?_, ?_⟩
  · rw [hmain.1]
    simp only [hlen1, Nat.add_sub_cancel, makePolynomial, List.getD_cons_zero]
  · rw [hmain.2]
    simp only [hlen1, Nat.add_sub_cancel]

/-- C5: every share returned by a successful `Split` carries, at byte offset
`len(secret)+1`, the intercept of the last per-secret-byte polynomial — which
equals the last byte of the secret — and, at offset `len(secret)+2`, that
polynomial's second coefficient; these two bytes are identical across all
shares, so one share alone reveals the secret's final byte. -/
theorem split_leaks_secret_tail (secret : List Nat) (parts threshold : Nat)
    (xs : List Nat) (rnd : Nat → Nat → Nat) (out : List (List Nat))
    (h : Split secret parts threshold xs rnd = .ok out) :
    ∀ share ∈ out,
      share.getD (secret.length + 1) 0 = secret.getD (secret.length - 1) 0 ∧
      share.getD (secret.length + 2) 0 =
        (makePolynomial (secret.getD (secret.length - 1) 0) (threshold - 1)
          (rnd (secret.length - 1))).getD 1 0 ∧
      ∀ share' ∈ out,
        share.getD (secret.length + 1) 0 = share'.getD (secret.length + 1) 0 ∧
        share.getD (secret.length + 2) 0 = share'.getD (secret.length + 2) 0 := by
  rw [Split] at h
  split_ifs at h with h1 h2 h3 h4 h5
  have hne : secret ≠ [] := by
    intro hx; exact h5 (by simp [hx])
  have hout : out = (List.range parts).map
      (fun i => splitShare secret threshold rnd (shareX xs i)) := by
    exact (Except.ok.inj h).symm
  subst hout
  intro share hmem
  simp only [List.mem_map] at hmem
  obtain ⟨i, _, rfl⟩ := hmem
  have hi := splitShare_tail secret hne threshold rnd (shareX xs i)
  refine ⟨hi.1, hi.2, ?_⟩
  intro share' hmem'
  simp only [List.mem_map] at hmem'
  obtain ⟨j, _, rfl⟩ := hmem'
  have hj := splitShare_tail secret hne threshold rnd (shareX xs j)
  exact ⟨hi.1.trans hj.1.symm, hi.2.trans hj.2.symm⟩

/-- The all-zero model of the `crypto/rand` coefficient source, used by the
concrete Shamir evaluations. -/
def rzero : Nat → Nat → Nat := fun _ _ => 0

/-- Witness for C5: on `Split [1,2] 2 2` with the identity x-permutation and
the all-zero coefficient source, byte 3 of the first share equals the last
secret byte and byte 4 the (zero) second coefficient. -/
theorem split_leaks_secret_tail_witness :
    ([1, 2, 1, 2, 0] : List Nat).getD 3 0 = ([1, 2] : List Nat).getD 1 0 ∧
    ([1, 2, 1, 2, 0] : List Nat).getD 4 0 =
      (makePolynomial (([1, 2] : List Nat).getD 1 0) 1 (rzero 1)).getD 1 0 :=
  ⟨(split_leaks_secret_tail [1, 2] 2 2 (List.range 255) rzero
      [[1, 2, 1, 2, 0], [1, 2, 2, 2, 0]] (by decide) [1, 2, 1, 2, 0]
      (by decide)).1,
   (split_leaks_secret_tail [1, 2] 2 2 (List.range 255) rzero
      [[1, 2, 1, 2, 0], [1, 2, 2, 2, 0]] (by decide) [1, 2, 1, 2, 0]
      (by decide)).2.1⟩

/-- C7: `Split` errors exactly when the constraints are violated — it succeeds
if and only if `2 ≤ threshold ≤ parts ≤ 255` with a non-empty secret (the
randomness source is total in this model, matching "absent randomness-source
failure") — and on success returns `parts` shares. -/
theorem split_validation (secret : List Nat) (parts threshold : Nat)
    (xs : List Nat) (rnd : Nat → Nat → Nat) :
    ((Split secret parts threshold xs rnd).isOk = true ↔
      (2 ≤ threshold ∧ threshold ≤ parts ∧ parts ≤ 255 ∧ secret ≠ [])) ∧
    (∀ out, Split secret parts threshold xs rnd = .ok out →
      out.length = parts) := by
  rw [Split]
  split_ifs with h1 h2 h3 h4 h5
  · constructor
    · simp only [Except.isOk, Except.toBool]
      constructor
      · intro hx; cases hx
      · intro hx; omega
    · intro out hout; cases hout
  · constructor
    · simp only [Except.isOk, Except.toBool]
      constructor
      · intro hx; cases hx
      · intro hx; omega
    · intro out hout; cases hout
  · constructor
    · simp only [Except.isOk, Except.toBool]
      constructor
      · intro hx; cases hx
      · intro hx; omega
    · intro out hout; cases hout
  · constructor
    · simp only [Except.isOk, Except.toBool]
      constructor
      · intro hx; cases hx
      · intro hx; omega
    · intro out hout; cases hout
  · constructor
    · simp only [Except.isOk, Except.toBool]
      constructor
      · intro hx; cases hx
      · intro hx
        exact absurd (List.length_eq_zero.mp h5) hx.2.2.2
    · intro out hout; cases hout
  · constructor
    · simp only [Except.isOk, Except.toBool]
      constructor
      · intro _
        refine ⟨by omega, by omega, by omega, ?_⟩
        intro hx
        exact h5 (by simp [hx])
      · intro _; trivial
    · intro out hout
      rw [← Except.ok.inj hout]
      simp

/-- Witness for C7: a valid call evaluated concretely — `Split [5] 3 2`
succeeds and returns 3 shares. -/
theorem split_validation_witness :
    ((Split [5] 3 2 (List.range 255) rzero).isOk = true ↔
      (2 ≤ 2 ∧ 2 ≤ 3 ∧ 3 ≤ 255 ∧ ([5] : List Nat) ≠ [])) ∧
    ([[5, 1, 5, 0], [5, 2, 5, 0], [5, 3, 5, 0]] : List (List Nat)).length = 3 :=
  ⟨(split_validation [5] 3 2 (List.range 255) rzero).1,
   (split_validation [5] 3 2 (List.range 255) rzero).2
      [[5, 1, 5, 0], [5, 2, 5, 0], [5, 3, 5, 0]] (by decide)⟩

/-- C4 is false on the code: `Combine` applied to the full share list of
`Split [1,2] 2 2` (identity x-permutation, all-zero coefficient source)
returns the secret with two extra trailing bytes — the interpolated x-column
(0) and the leaked last secret byte — not the original secret. -/
theorem split_combine_appends_bytes :
    Split [1, 2] 2 2 (List.range 255) rzero =
      .ok [[1, 2, 1, 2, 0], [1, 2, 2, 2, 0]] ∧
    Combine [[1, 2, 1, 2, 0], [1, 2, 2, 2, 0]] = .ok [1, 2, 0, 2] ∧
    ([1, 2, 0, 2] : List Nat) ≠ [1, 2] :=
  ⟨by decide, by decide, by decide⟩

/-- C6 is false on the code: each share of `Split [1] 2 2` has length
`len(secret) + 3`, not `len(secret) + ShareOverhead` as the code's own
`ShareOverhead` constant and doc comment state. -/
theorem share_length_not_shareOverhead :
    ShareOverhead = 1 ∧
    Split [1] 2 2 (List.range 255) rzero = .ok [[1, 1, 1, 0], [1, 2, 1, 0]] ∧
    ([1, 1, 1, 0] : List Nat).length = ([1] : List Nat).length + 3 ∧
    ([1, 1, 1, 0] : List Nat).length ≠ ([1] : List Nat).length + ShareOverhead :=
  ⟨rfl, by decide, by decide, by decide⟩

end Shamir

namespace Darkmatter

set_option maxRecDepth 4000 in
/-- Known-answer test for the SHA-256 embedding: the digest of the empty
message matches the FIPS 180-4 value, so `calculateHash` is built on the
genuine hash function. -/
theorem sha256_empty_kat :
    hexEncode (sha256 []) =
      strBytes "e3b0c44298fc1c149afbf4c8996fb92427ae41e4649b934ca495991b7852b855" := by
  decide

end Darkmatter
